import Mathlib

/-!
Verification of the address-space and processor-state bootstrap subsystem of
the `bootloader` repository.  The definitions below are shallow embeddings of
the Rust source files `src/bin/bios.rs` and `src/shared/src/structures/gdt.rs`:
machine `u64` values are modelled as `Nat` (with explicit `% 2^64` where the
source can overflow), fallible operations (Rust panics) return `Option`, and
the bit-manipulation helpers `set_bits` / `get_bits` of the `bit_field` crate
are modelled arithmetically.
-/

namespace Bootloader

/-! ## Bit-field helpers (the `bit_field` crate's `get_bits` / `set_bits` / `set_bit`) -/

/-- `v.get_bits(lo..hi)`: the bits of `v` in positions `[lo, hi)`, shifted down. -/
def getBits (lo hi v : Nat) : Nat := (v / 2 ^ lo) % 2 ^ (hi - lo)

/-- `val.set_bits(lo..hi, v)`: replace the bits of `val` in positions `[lo, hi)`
by the (suitably truncated) value `v`. -/
def setBits (lo hi val v : Nat) : Nat :=
  val % 2 ^ lo + (v % 2 ^ (hi - lo)) * 2 ^ lo + val / 2 ^ hi * 2 ^ hi

/-- `val.set_bit(n, true)`: set bit `n` of `val`. -/
def setBit (n val : Nat) : Nat := setBits n (n + 1) val 1

/-! ## `GlobalDescriptorTable` (src/shared/src/structures/gdt.rs)

The table is an array of 8 `u64` descriptor slots plus a `next_free` cursor.
`push` panics ("GDT full") when the table is exhausted; the panic is modelled
by returning `none`. -/

structure GlobalDescriptorTable where
  table : List Nat
  next_free : Nat
  deriving Repr, DecidableEq

namespace GlobalDescriptorTable

/-- `GlobalDescriptorTable::new()`: 8 zeroed slots, cursor at 1. -/
def new : GlobalDescriptorTable := ⟨List.replicate 8 0, 1⟩

/-- `GlobalDescriptorTable::push`: write `value` at slot `next_free` and return
its index, or fail (`panic!("GDT full")`, modelled as `none`) when no slot is
free. -/
def push (g : GlobalDescriptorTable) (value : Nat) : Option (Nat × GlobalDescriptorTable) :=
  if g.next_free < g.table.length then
    some (g.next_free, ⟨g.table.set g.next_free value, g.next_free + 1⟩)
  else
    none

/-- `GlobalDescriptorTable::add_entry`: push the descriptor's raw value and
return the slot index. -/
def add_entry (g : GlobalDescriptorTable) (entry : Nat) : Option (Nat × GlobalDescriptorTable) :=
  g.push entry

/-- Apply a sequence of `add_entry` calls in order; a failed (panicking) call
leaves the table unchanged. -/
def addAll (g : GlobalDescriptorTable) (entries : List Nat) : GlobalDescriptorTable :=
  entries.foldl (fun g e => match g.add_entry e with
    | some (_, g1) => g1
    | none => g) g

end GlobalDescriptorTable

/-! ## Descriptor flag bits (`DescriptorFlags` in gdt.rs) -/

namespace DescriptorFlags

def ACCESSED : Nat := 2 ^ 40
def READABLE_WRITABLE : Nat := 2 ^ 41
def CONFORMING : Nat := 2 ^ 42
def EXECUTABLE : Nat := 2 ^ 43
def USER_SEGMENT : Nat := 2 ^ 44
def PRESENT : Nat := 2 ^ 47
def LONG_MODE : Nat := 2 ^ 53
def DPL_RING_3 : Nat := 3 * 2 ^ 45
def AVAILABLE : Nat := 2 ^ 52
def SIZE : Nat := 2 ^ 54
def GRANULARITY : Nat := 2 ^ 55

end DescriptorFlags

/-! ## Descriptor builders (gdt.rs `impl Descriptor`)

A descriptor is an opaque 64-bit value; we model it directly as the `Nat` it
encodes.  Rust's bitwise-or of flags is `Nat`'s `|||`. -/

namespace Descriptor

/-- `Descriptor::with_flat_limit`: set limit bits 0..16 to `0xffff`, set bits
48, 49, 50, 51, and or in the granularity flag (bit 55). -/
def with_flat_limit (d : Nat) : Nat :=
  let d := setBits 0 16 d 0xffff
  let d := setBit 48 d
  let d := setBit 49 d
  let d := setBit 50 d
  let d := setBit 51 d
  d ||| DescriptorFlags.GRANULARITY

/-- `Descriptor::null_descriptor()` -/
def null_descriptor : Nat := 0

/-- `Descriptor::kernel_code_segment()` -/
def kernel_code_segment : Nat :=
  with_flat_limit
    (DescriptorFlags.USER_SEGMENT ||| DescriptorFlags.PRESENT |||
      DescriptorFlags.READABLE_WRITABLE ||| DescriptorFlags.ACCESSED |||
      DescriptorFlags.SIZE ||| DescriptorFlags.EXECUTABLE)

/-- `Descriptor::kernel_data_segment()` -/
def kernel_data_segment : Nat :=
  with_flat_limit
    (DescriptorFlags.USER_SEGMENT ||| DescriptorFlags.PRESENT |||
      DescriptorFlags.READABLE_WRITABLE ||| DescriptorFlags.ACCESSED |||
      DescriptorFlags.SIZE)

/-- `Descriptor::user_data_segment()` -/
def user_data_segment : Nat :=
  with_flat_limit
    (DescriptorFlags.USER_SEGMENT ||| DescriptorFlags.PRESENT |||
      DescriptorFlags.READABLE_WRITABLE ||| DescriptorFlags.ACCESSED |||
      DescriptorFlags.DPL_RING_3)

/-- `Descriptor::user_code_segment()` -/
def user_code_segment : Nat :=
  with_flat_limit
    (DescriptorFlags.USER_SEGMENT ||| DescriptorFlags.PRESENT |||
      DescriptorFlags.READABLE_WRITABLE ||| DescriptorFlags.ACCESSED |||
      DescriptorFlags.EXECUTABLE ||| DescriptorFlags.DPL_RING_3)

/-- `size_of::<TaskStateSegment>()`: the `#[repr(C, packed)]` legacy 32-bit TSS
is 4 (prev_tss) + 24 (3 stacks of two u32) + 68 (17 u32 registers) + 4 (ldt)
+ 2 (trap) + 2 (iomap_base) = 104 bytes. -/
def sizeOfTaskStateSegment : Nat := 104

/-- `Descriptor::tss_segment`: pack the TSS address `ptr` into base bits 16..40
(address bits 0..24) and 56..64 (address bits 24..32), the size-minus-one limit
into bits 0..16, over the fixed flags {present, executable, accessed, size,
ring-3 DPL}. -/
def tss_segment (ptr : Nat) : Nat :=
  let val := DescriptorFlags.PRESENT ||| DescriptorFlags.EXECUTABLE |||
    DescriptorFlags.ACCESSED ||| DescriptorFlags.SIZE ||| DescriptorFlags.DPL_RING_3
  let val := setBits 16 40 val (getBits 0 24 ptr)
  let val := setBits 56 64 val (getBits 24 32 ptr)
  let val := setBits 0 16 val (getBits 0 16 (sizeOfTaskStateSegment - 1))
  val

/-- Decoding the two disjoint base-address bit ranges of a TSS system
descriptor: bits 16..40 give address bits 0..24, bits 56..64 give address
bits 24..32. -/
def tss_base_decode (d : Nat) : Nat :=
  getBits 16 40 d + getBits 56 64 d * 2 ^ 24

end Descriptor

/-! ## `bootloader_main` memory-map interpretation (src/bin/bios.rs)

An E820 firmware memory region: `{start_addr: u64, len: u64, region_type}`.
(The struct itself lives in the crate's `bios::memory_descriptor` module; only
the fields read by `bios.rs` matter here.) -/

structure E820MemoryRegion where
  start_addr : Nat
  len : Nat
  region_type : Nat
  deriving Repr, DecidableEq

/-- `r.start_addr + r.len` as computed on `u64` values (wrapping). -/
def regionEnd (r : E820MemoryRegion) : Nat := (r.start_addr + r.len) % 2 ^ 64

/-- `Iterator::max` over a list: `none` on the empty list, otherwise a left
fold of `max` over the elements. -/
def iterMax : List Nat → Option Nat
  | [] => none
  | x :: xs => some (xs.foldl max x)

/-- The `max_phys_addr` computation of `bootloader_main`:
`e820_memory_map.iter().map(|r| r.start_addr + r.len).max()`; the
`.expect("no physical memory regions found")` panic on an empty map is
modelled by `none`. -/
def max_phys_addr (map : List E820MemoryRegion) : Option Nat :=
  iterMax (map.map regionEnd)

/-! ## Frame-allocator starting cursor (src/bin/bios.rs)

`PhysFrame::<Size4KiB>::containing_address(a)` has the base address
`a / 4096 * 4096`; `frame + 1` advances the base by 4096. -/

/-- Base address of the 4 KiB frame containing address `a`. -/
def frame4K_containing (a : Nat) : Nat := a / 4096 * 4096

/-- The starting cursor of the frame allocator in `bootloader_main`:
`kernel_end = PhysFrame::containing_address(kernel_start + kernel_size - 1);
next_free = kernel_end + 1`, given as a base address. -/
def next_free_start (kernel_start kernel_size : Nat) : Nat :=
  frame4K_containing (kernel_start + kernel_size - 1) + 4096

/-! ## Loader identity-map loop (src/bin/bios.rs)

2 MiB frames; `PhysFrame::range_inclusive(s, e)` yields the frames with base
addresses `s.base, s.base + 2^21, …, e.base` (empty when `s > e`). -/

/-- Base address of the 2 MiB frame containing address `a`. -/
def frame2M_containing (a : Nat) : Nat := a / 2 ^ 21 * 2 ^ 21

/-- `PhysFrame::range_inclusive` on 2 MiB frame base addresses. -/
def range_inclusive_2M (s e : Nat) : List Nat :=
  if s ≤ e then List.range' s ((e - s) / 2 ^ 21 + 1) (2 ^ 21) else []

/-- A page-table mapping installed by `identity_map`: physical frame base,
virtual page base, entry flags. -/
structure MappingEntry where
  phys : Nat
  virt : Nat
  flags : Nat
  deriving Repr, DecidableEq

/-- `PageTableFlags::PRESENT` (bit 0). -/
def PT_PRESENT : Nat := 1
/-- `PageTableFlags::WRITABLE` (bit 1). -/
def PT_WRITABLE : Nat := 2

/-- The identity-map loop of `bootloader_main`: for every 2 MiB frame from the
frame containing `4096 * 512 * 512` (1 GiB) through the frame containing
`max_phys_addr - 1`, install `identity_map(frame, PRESENT | WRITABLE)` —
a mapping of the frame to the identical virtual address. -/
def identity_map_loop (maxPhysAddr : Nat) : List MappingEntry :=
  (range_inclusive_2M (frame2M_containing (4096 * 512 * 512))
      (frame2M_containing (maxPhysAddr - 1))).map
    (fun f => ⟨f, f, PT_PRESENT ||| PT_WRITABLE⟩)

/-! ## ACPI RSDP detection (src/bin/bios.rs `detect_rsdp`)

`detect_rsdp` calls `Rsdp::search_for_on_bios` from the external `rsdp` crate
and turns its `Result` into an `Option` via `.ok().map(..)`.  The scan itself
is not part of this repository, so it is modelled from the spec. -/

/-- The 8 signature bytes, `"RSD PTR "`. -/
def RSDP_SIGNATURE : List Nat := [0x52, 0x53, 0x44, 0x20, 0x50, 0x54, 0x52, 0x20]

/-- The `n` bytes of `mem` starting at offset `off`. -/
def bytesAt (mem : List Nat) (off n : Nat) : List Nat := (mem.drop off).take n

/-- Modelled from the spec: a candidate offset holds a valid RSDP when the 8
bytes there equal the `"RSD PTR "` signature and the 20-byte structure
checksums to 0 mod 256. -/
def validRsdpAt (mem : List Nat) (off : Nat) : Bool :=
  bytesAt mem off 8 == RSDP_SIGNATURE && (bytesAt mem off 20).sum % 256 == 0

/-- Modelled from the spec: `Rsdp::search_for_on_bios` (external `rsdp` crate)
— a bounded signature scan over the identity-mapped physical memory `mem`,
trying each 16-byte-aligned offset in order and returning the first offset
holding a valid signature, or an error when none does. -/
def search_for_on_bios (mem : List Nat) : Except Unit Nat :=
  match (List.range mem.length).filter
      (fun off => off % 16 == 0 && validRsdpAt mem off) with
  | [] => .error ()
  | off :: _ => .ok off

/-- `detect_rsdp`: `Rsdp::search_for_on_bios(IdentityMapped).ok().map(|m|
PhysAddr::new(m.physical_start))`. -/
def detect_rsdp (mem : List Nat) : Option Nat :=
  (search_for_on_bios mem).toOption

/-- A 20-byte memory image holding a validly checksummed RSDP at offset 0:
the `"RSD PTR "` signature followed by a byte making the checksum 0 mod 256. -/
def rsdpExampleMem : List Nat :=
  [0x52, 0x53, 0x44, 0x20, 0x50, 0x54, 0x52, 0x20,
   225, 0, 0, 0, 0, 0, 0, 0, 0, 0, 0, 0]

end Bootloader

namespace Bootloader

/-! ## sanity examples (concrete evaluations of the embedded builders) -/

example : Descriptor.kernel_code_segment =
    0xffff + 2 ^ 40 + 2 ^ 41 + 2 ^ 43 + 2 ^ 44 + 2 ^ 47 +
      2 ^ 48 + 2 ^ 49 + 2 ^ 50 + 2 ^ 51 + 2 ^ 54 + 2 ^ 55 := by decide

example : Nat.testBit Descriptor.user_data_segment 54 = false := by decide

example : GlobalDescriptorTable.new.add_entry 5 =
    some (1, ⟨[0, 5, 0, 0, 0, 0, 0, 0], 2⟩) := by decide

/-! ## Claims about the descriptor builders -/

/-- Claim C4: the 64-bit value encoded by `kernel_code_segment()` has bits
40, 41, 43, 44, 47, 54 and 55 set, bits 0 through 15 equal to `0xFFFF`, and
bits 48 through 51 all set to 1. -/
theorem c4_kernel_code_segment_bits :
    (∀ b ∈ [40, 41, 43, 44, 47, 54, 55],
        Nat.testBit Descriptor.kernel_code_segment b = true) ∧
    getBits 0 16 Descriptor.kernel_code_segment = 0xffff ∧
    (∀ b ∈ [48, 49, 50, 51],
        Nat.testBit Descriptor.kernel_code_segment b = true) := by
  decide

/-- Claim C5 fails on the code: `user_data_segment()` does not set bit 54 (the
SIZE flag), so the value does not carry every bit the claim lists for it. -/
theorem c5_counterexample :
    ¬ (Nat.testBit Descriptor.user_data_segment 45 = true ∧
       Nat.testBit Descriptor.user_data_segment 46 = true ∧
       Nat.testBit Descriptor.user_data_segment 43 = false ∧
       (∀ b ∈ [40, 41, 44, 47, 54, 55],
           Nat.testBit Descriptor.user_data_segment b = true) ∧
       getBits 0 16 Descriptor.user_data_segment = 0xffff ∧
       (∀ b ∈ [48, 49, 50, 51],
           Nat.testBit Descriptor.user_data_segment b = true)) := by
  decide

/-- Claim C5 (amended): the value encoded by `user_data_segment()` has the
ring-3 privilege bits (45, 46) set, the executable bit (43) clear, bits 40,
41, 44, 47 and 55 set, bit 54 (SIZE) clear, bits 0 through 15 equal to
`0xFFFF`, and bits 48 through 51 all set to 1. -/
theorem c5_user_data_segment_bits :
    Nat.testBit Descriptor.user_data_segment 45 = true ∧
    Nat.testBit Descriptor.user_data_segment 46 = true ∧
    Nat.testBit Descriptor.user_data_segment 43 = false ∧
    Nat.testBit Descriptor.user_data_segment 54 = false ∧
    (∀ b ∈ [40, 41, 44, 47, 55],
        Nat.testBit Descriptor.user_data_segment b = true) ∧
    getBits 0 16 Descriptor.user_data_segment = 0xffff ∧
    (∀ b ∈ [48, 49, 50, 51],
        Nat.testBit Descriptor.user_data_segment b = true) := by
  decide

/-- Claim C10: `user_code_segment()` and `user_data_segment()` leave bit 54
(the SIZE flag) clear, while `kernel_code_segment()` and
`kernel_data_segment()` both set it. -/
theorem c10_size_flag_kernel_vs_user :
    Nat.testBit Descriptor.user_code_segment 54 = false ∧
    Nat.testBit Descriptor.user_data_segment 54 = false ∧
    Nat.testBit Descriptor.kernel_code_segment 54 = true ∧
    Nat.testBit Descriptor.kernel_data_segment 54 = true := by
  decide

/-- Claim C6: for every TSS address representable in 32 bits, decoding the
base-address bit ranges (16..40 and 56..64) of the descriptor produced by
`tss_segment` yields the original address. -/
theorem c6_tss_segment_roundtrip (ptr : Nat) (h : ptr < 2 ^ 32) :
    Descriptor.tss_base_decode (Descriptor.tss_segment ptr) = ptr := by
  have hF : (DescriptorFlags.PRESENT ||| DescriptorFlags.EXECUTABLE |||
      DescriptorFlags.ACCESSED ||| DescriptorFlags.SIZE |||
      DescriptorFlags.DPL_RING_3) =
      2 ^ 40 + 2 ^ 43 + 2 ^ 45 + 2 ^ 46 + 2 ^ 47 + 2 ^ 54 := by decide
  simp only [Descriptor.tss_base_decode, Descriptor.tss_segment,
    Descriptor.sizeOfTaskStateSegment, getBits, setBits, hF]
  omega

/-- Witness for C6 at the concrete TSS address `0x89ABCDEF`. -/
theorem c6_tss_segment_roundtrip_witness :
    Descriptor.tss_base_decode (Descriptor.tss_segment 0x89ABCDEF) = 0x89ABCDEF :=
  c6_tss_segment_roundtrip 0x89ABCDEF (by decide)

/-! ## Claims about the GDT -/

/-- Claim C3: from `GlobalDescriptorTable::new()`, seven successive
`add_entry` calls succeed with slot indices 1 through 7 in order, and an
eighth call fails (`panic!("GDT full")`, modelled as `none`). -/
theorem c3_gdt_seven_entries_then_full (d1 d2 d3 d4 d5 d6 d7 d8 : Nat) :
    ∃ g1 g2 g3 g4 g5 g6 g7 : GlobalDescriptorTable,
      GlobalDescriptorTable.new.add_entry d1 = some (1, g1) ∧
      g1.add_entry d2 = some (2, g2) ∧
      g2.add_entry d3 = some (3, g3) ∧
      g3.add_entry d4 = some (4, g4) ∧
      g4.add_entry d5 = some (5, g5) ∧
      g5.add_entry d6 = some (6, g6) ∧
      g6.add_entry d7 = some (7, g7) ∧
      g7.add_entry d8 = none :=
  ⟨⟨[0, d1, 0, 0, 0, 0, 0, 0], 2⟩, ⟨[0, d1, d2, 0, 0, 0, 0, 0], 3⟩,
   ⟨[0, d1, d2, d3, 0, 0, 0, 0], 4⟩, ⟨[0, d1, d2, d3, d4, 0, 0, 0], 5⟩,
   ⟨[0, d1, d2, d3, d4, d5, 0, 0], 6⟩, ⟨[0, d1, d2, d3, d4, d5, d6, 0], 7⟩,
   ⟨[0, d1, d2, d3, d4, d5, d6, d7], 8⟩,
   rfl, rfl, rfl, rfl, rfl, rfl, rfl, rfl⟩

/-- Slot 0 and a positive cursor are preserved by any sequence of
`add_entry` calls. -/
theorem addAll_preserves_slot0 (ds : List Nat) (g : GlobalDescriptorTable)
    (h0 : g.table[0]? = some 0) (h1 : 1 ≤ g.next_free) :
    (g.addAll ds).table[0]? = some 0 ∧ 1 ≤ (g.addAll ds).next_free := by
  induction ds generalizing g with
  | nil => exact ⟨h0, h1⟩
  | cons d ds ih =>
    simp only [GlobalDescriptorTable.addAll, List.foldl_cons] at *
    rcases hstep : g.add_entry d with _ | ⟨i, g1⟩
    · simpa [hstep] using ih g h0 h1
    · have hg1 : g1.table[0]? = some 0 ∧ 1 ≤ g1.next_free := by
        simp only [GlobalDescriptorTable.add_entry, GlobalDescriptorTable.push] at hstep
        split at hstep
        · cases hstep
          refine ⟨?_, ?_⟩
          · show (g.table.set g.next_free d)[0]? = some 0
            rw [List.getElem?_set_ne (by omega)]
            exact h0
          · show 1 ≤ g.next_free + 1
            omega
        · cases hstep
      simpa [hstep] using ih g1 hg1.1 hg1.2

/-- Claim C9: `new()` zero-initializes all 8 slots with the cursor at 1, and
slot 0 remains the all-zero null descriptor after any sequence of
`add_entry` calls. -/
theorem c9_slot0_null_invariant :
    GlobalDescriptorTable.new.table = List.replicate 8 0 ∧
    GlobalDescriptorTable.new.next_free = 1 ∧
    ∀ ds : List Nat,
      (GlobalDescriptorTable.new.addAll ds).table[0]? = some 0 :=
  ⟨rfl, rfl, fun ds => (addAll_preserves_slot0 ds GlobalDescriptorTable.new rfl (by decide)).1⟩

/-! ## Claims about the memory-map interpretation -/

/-- A left fold of `max` yields an element of the list that bounds every
element, mirroring `Iterator::max`. -/
theorem foldl_max_spec (x : Nat) (xs : List Nat) :
    xs.foldl max x ∈ x :: xs ∧ ∀ y ∈ x :: xs, y ≤ xs.foldl max x := by
  induction xs generalizing x with
  | nil => simp
  | cons a l ih =>
    obtain ⟨hmem, hle⟩ := ih (max x a)
    simp only [List.foldl_cons]
    constructor
    · rcases List.mem_cons.mp hmem with h1 | h1
      · rw [h1]
        rcases max_choice x a with h2 | h2 <;> rw [h2] <;> simp
      · exact List.mem_cons_of_mem _ (List.mem_cons_of_mem _ h1)
    · intro y hy
      rcases List.mem_cons.mp hy with h1 | h1
      · subst h1
        exact le_trans (Nat.le_max_left y a) (hle _ (List.mem_cons_self _ _))
      · rcases List.mem_cons.mp h1 with h2 | h2
        · subst h2
          exact le_trans (Nat.le_max_right x y) (hle _ (List.mem_cons_self _ _))
        · exact hle _ (List.mem_cons_of_mem _ h2)

/-- Claim C1: for every non-empty firmware memory map, the computed maximum
physical address is the maximum of `start_addr + len` over all entries
(regardless of region kind); on the empty map the computation fails
(`expect`, modelled as `none`). -/
theorem c1_max_phys_addr (map : List E820MemoryRegion) (h : map ≠ []) :
    (∃ m, max_phys_addr map = some m ∧ (∃ r ∈ map, regionEnd r = m) ∧
        ∀ r ∈ map, regionEnd r ≤ m) ∧
    max_phys_addr ([] : List E820MemoryRegion) = none := by
  refine ⟨?_, rfl⟩
  cases map with
  | nil => exact absurd rfl h
  | cons r rs =>
    obtain ⟨hmem, hle⟩ := foldl_max_spec (regionEnd r) (rs.map regionEnd)
    rw [← List.map_cons] at hmem
    refine ⟨(rs.map regionEnd).foldl max (regionEnd r), rfl, ?_, ?_⟩
    · obtain ⟨r1, hr1, heq⟩ := List.mem_map.mp hmem
      exact ⟨r1, hr1, heq⟩
    · intro r1 hr1
      exact hle _ (List.mem_map_of_mem _ hr1)

/-- Witness for C1 on a two-region map (and the empty map). -/
theorem c1_max_phys_addr_witness :
    (∃ m, max_phys_addr [⟨0, 0x9fc00, 1⟩, ⟨0x100000, 0x7ee0000, 1⟩] = some m ∧
        (∃ r ∈ [(⟨0, 0x9fc00, 1⟩ : E820MemoryRegion), ⟨0x100000, 0x7ee0000, 1⟩],
          regionEnd r = m) ∧
        ∀ r ∈ [(⟨0, 0x9fc00, 1⟩ : E820MemoryRegion), ⟨0x100000, 0x7ee0000, 1⟩],
          regionEnd r ≤ m) ∧
    max_phys_addr ([] : List E820MemoryRegion) = none :=
  c1_max_phys_addr [⟨0, 0x9fc00, 1⟩, ⟨0x100000, 0x7ee0000, 1⟩] (by decide)

/-! ## Claims about the frame-allocator starting cursor -/

/-- Claim C2: for `kernel_size > 0`, the frame allocator's starting cursor is
the first page-aligned frame lying entirely beyond the kernel image — the
kernel end address rounded up to the next frame boundary — and no frame at or
after the cursor intersects `[kernel_start, kernel_start + kernel_size)`. -/
theorem c2_frame_allocator_cursor (ks sz : Nat) (h : 0 < sz) :
    next_free_start ks sz % 4096 = 0 ∧
    next_free_start ks sz = 4096 * ((ks + sz + 4095) / 4096) ∧
    ks + sz ≤ next_free_start ks sz ∧
    (∀ f, f % 4096 = 0 → ks + sz ≤ f → next_free_start ks sz ≤ f) ∧
    (∀ f a, next_free_start ks sz ≤ f → f ≤ a → a < f + 4096 →
        ¬(ks ≤ a ∧ a < ks + sz)) := by
  unfold next_free_start frame4K_containing
  refine ⟨by omega, by omega, by omega, fun f hf hle => by omega,
    fun f a h1 h2 h3 h4 => by omega⟩

/-- Witness for C2 at a concrete kernel location and size. -/
theorem c2_frame_allocator_cursor_witness :
    next_free_start 0x400000 0x12345 % 4096 = 0 ∧
    next_free_start 0x400000 0x12345 = 4096 * ((0x400000 + 0x12345 + 4095) / 4096) ∧
    0x400000 + 0x12345 ≤ next_free_start 0x400000 0x12345 ∧
    (∀ f, f % 4096 = 0 → 0x400000 + 0x12345 ≤ f → next_free_start 0x400000 0x12345 ≤ f) ∧
    (∀ f a, next_free_start 0x400000 0x12345 ≤ f → f ≤ a → a < f + 4096 →
        ¬(0x400000 ≤ a ∧ a < 0x400000 + 0x12345)) :=
  c2_frame_allocator_cursor 0x400000 0x12345 (by decide)

/-! ## Claims about the identity-map loop -/

/-- For a maximum physical address above 1 GiB, the identity-map loop is the
arithmetic progression of 2 MiB frame bases from 1 GiB through the frame
containing `maxA - 1`, each turned into an identity mapping. -/
theorem identity_map_loop_eq (maxA : Nat) (h : 2 ^ 30 < maxA) :
    identity_map_loop maxA =
      (List.range' (2 ^ 30) ((frame2M_containing (maxA - 1) - 2 ^ 30) / 2 ^ 21 + 1)
          (2 ^ 21)).map (fun f => ⟨f, f, PT_PRESENT ||| PT_WRITABLE⟩) := by
  unfold identity_map_loop range_inclusive_2M
  have hstart : frame2M_containing (4096 * 512 * 512) = 2 ^ 30 := by
    unfold frame2M_containing
    norm_num
  rw [hstart, if_pos (show (2 : Nat) ^ 30 ≤ frame2M_containing (maxA - 1) by
    unfold frame2M_containing
    omega)]

/-- Membership in the identity-map loop's entries: an entry exists with frame
base `p` precisely when `p` is a 2 MiB-aligned address between 1 GiB and the
frame containing `maxA - 1`; and every entry is an identity mapping with
flags {present, writable}. -/
theorem mem_identity_map_loop (maxA : Nat) (h : 2 ^ 30 < maxA) :
    (∀ e, e ∈ identity_map_loop maxA ↔
      ∃ f, (f % 2 ^ 21 = 0 ∧ 2 ^ 30 ≤ f ∧ f ≤ frame2M_containing (maxA - 1)) ∧
        e = ⟨f, f, PT_PRESENT ||| PT_WRITABLE⟩) := by
  intro e
  rw [identity_map_loop_eq maxA h, List.mem_map]
  constructor
  · rintro ⟨f, hf, rfl⟩
    rw [List.mem_range'] at hf
    obtain ⟨i, hi, rfl⟩ := hf
    refine ⟨2 ^ 30 + 2 ^ 21 * i, ⟨by omega, by omega, ?_⟩, rfl⟩
    unfold frame2M_containing at *
    omega
  · rintro ⟨f, ⟨h1, h2, h3⟩, rfl⟩
    refine ⟨f, ?_, rfl⟩
    rw [List.mem_range']
    refine ⟨(f - 2 ^ 30) / 2 ^ 21, ?_, by omega⟩
    unfold frame2M_containing at *
    omega

/-- Claim C7: for every maximum physical address above 1 GiB, the loader
identity-map loop maps exactly the 2 MiB-aligned frames from the frame
containing 1 GiB through the frame containing `maxA - 1`, each frame exactly
once, to the identical virtual address with flags {present, writable}; for a
2 GiB maximum the mapped frames cover `[1 GiB, 2 GiB)` with no gaps and no
frame mapped twice. -/
theorem c7_identity_map_loop (maxA : Nat) (h : 2 ^ 30 < maxA) :
    (∀ p, (∃ e ∈ identity_map_loop maxA, e.phys = p) ↔
        (p % 2 ^ 21 = 0 ∧ 2 ^ 30 ≤ p ∧ p ≤ frame2M_containing (maxA - 1))) ∧
    ((identity_map_loop maxA).map MappingEntry.phys).Nodup ∧
    (∀ e ∈ identity_map_loop maxA,
        e.virt = e.phys ∧ e.flags = (PT_PRESENT ||| PT_WRITABLE)) ∧
    (∀ a, 2 ^ 30 ≤ a → a < 2 ^ 31 →
      ∃ e ∈ identity_map_loop (2 ^ 31), e.phys ≤ a ∧ a < e.phys + 2 ^ 21 ∧
        ∀ e2 ∈ identity_map_loop (2 ^ 31),
          e2.phys ≤ a → a < e2.phys + 2 ^ 21 → e2 = e) := by
  have hmem := mem_identity_map_loop maxA h
  refine ⟨?_, ?_, ?_, ?_⟩
  · intro p
    constructor
    · rintro ⟨e, he, rfl⟩
      obtain ⟨f, hf, rfl⟩ := (hmem e).mp he
      exact hf
    · rintro ⟨h1, h2, h3⟩
      exact ⟨⟨p, p, PT_PRESENT ||| PT_WRITABLE⟩,
        (hmem _).mpr ⟨p, ⟨h1, h2, h3⟩, rfl⟩, rfl⟩
  · rw [identity_map_loop_eq maxA h, List.map_map]
    have : (MappingEntry.phys ∘ fun f => (⟨f, f, PT_PRESENT ||| PT_WRITABLE⟩ :
        MappingEntry)) = id := rfl
    rw [this, List.map_id]
    exact List.nodup_range' _ _ _ (by norm_num)
  · intro e he
    obtain ⟨f, _, rfl⟩ := (hmem e).mp he
    exact ⟨rfl, rfl⟩
  · intro a ha1 ha2
    have h31 : (2 : Nat) ^ 30 < 2 ^ 31 := by norm_num
    have hmem31 := mem_identity_map_loop (2 ^ 31) h31
    have hE : frame2M_containing (2 ^ 31 - 1) = 2 ^ 31 - 2 ^ 21 := by
      unfold frame2M_containing
      norm_num
    have hfa1 : (a / 2 ^ 21 * 2 ^ 21) % 2 ^ 21 = 0 := by omega
    have hfa2 : 2 ^ 30 ≤ a / 2 ^ 21 * 2 ^ 21 := by omega
    have hfa3 : a / 2 ^ 21 * 2 ^ 21 ≤ frame2M_containing (2 ^ 31 - 1) := by
      rw [hE]
      omega
    refine ⟨⟨a / 2 ^ 21 * 2 ^ 21, a / 2 ^ 21 * 2 ^ 21, PT_PRESENT ||| PT_WRITABLE⟩,
      (hmem31 _).mpr ⟨a / 2 ^ 21 * 2 ^ 21, ⟨hfa1, hfa2, hfa3⟩, rfl⟩, ?_, ?_, ?_⟩
    · show a / 2 ^ 21 * 2 ^ 21 ≤ a
      omega
    · show a < a / 2 ^ 21 * 2 ^ 21 + 2 ^ 21
      omega
    · intro e2 he2 hb1 hb2
      obtain ⟨f, ⟨hf1, hf2, hf3⟩, rfl⟩ := (hmem31 e2).mp he2
      have hb1' : f ≤ a := hb1
      have hb2' : a < f + 2 ^ 21 := hb2
      have hf : f = a / 2 ^ 21 * 2 ^ 21 := by omega
      rw [hf]

/-- Witness for C7 at the concrete maximum physical address 2 GiB. -/
theorem c7_identity_map_loop_witness :
    (∀ p, (∃ e ∈ identity_map_loop (2 ^ 31), e.phys = p) ↔
        (p % 2 ^ 21 = 0 ∧ 2 ^ 30 ≤ p ∧ p ≤ frame2M_containing (2 ^ 31 - 1))) ∧
    ((identity_map_loop (2 ^ 31)).map MappingEntry.phys).Nodup ∧
    (∀ e ∈ identity_map_loop (2 ^ 31),
        e.virt = e.phys ∧ e.flags = (PT_PRESENT ||| PT_WRITABLE)) ∧
    (∀ a, 2 ^ 30 ≤ a → a < 2 ^ 31 →
      ∃ e ∈ identity_map_loop (2 ^ 31), e.phys ≤ a ∧ a < e.phys + 2 ^ 21 ∧
        ∀ e2 ∈ identity_map_loop (2 ^ 31),
          e2.phys ≤ a → a < e2.phys + 2 ^ 21 → e2 = e) :=
  c7_identity_map_loop (2 ^ 31) (by norm_num)

/-! ## Claims about ACPI RSDP detection -/

/-- Claim C8: `detect_rsdp` returns a present value holding a valid scan hit
when one exists in the scanned memory, and an absent value (`none`) — not a
fatal error — when no valid signature is found. -/
theorem c8_detect_rsdp (mem : List Nat) :
    ((∃ off, off < mem.length ∧ off % 16 = 0 ∧ validRsdpAt mem off = true) →
      ∃ off, detect_rsdp mem = some off ∧ off % 16 = 0 ∧
        validRsdpAt mem off = true) ∧
    ((∀ off, off < mem.length → ¬(off % 16 = 0 ∧ validRsdpAt mem off = true)) →
      detect_rsdp mem = none) := by
  constructor
  · rintro ⟨off, hlt, hal, hval⟩
    unfold detect_rsdp search_for_on_bios
    rcases hf : (List.range mem.length).filter
        (fun off => off % 16 == 0 && validRsdpAt mem off) with _ | ⟨o, rest⟩
    · exfalso
      rw [List.filter_eq_nil_iff] at hf
      exact hf off (List.mem_range.mpr hlt) (by simp [hal, hval])
    · have ho : o ∈ (List.range mem.length).filter
          (fun off => off % 16 == 0 && validRsdpAt mem off) := by
        rw [hf]
        exact List.mem_cons_self _ _
      rw [List.mem_filter] at ho
      have := ho.2
      simp only [Bool.and_eq_true, beq_iff_eq] at this
      exact ⟨o, rfl, this.1, this.2⟩
  · intro hnone
    unfold detect_rsdp search_for_on_bios
    rcases hf : (List.range mem.length).filter
        (fun off => off % 16 == 0 && validRsdpAt mem off) with _ | ⟨o, rest⟩
    · rfl
    · exfalso
      have ho : o ∈ (List.range mem.length).filter
          (fun off => off % 16 == 0 && validRsdpAt mem off) := by
        rw [hf]
        exact List.mem_cons_self _ _
      rw [List.mem_filter] at ho
      have h2 := ho.2
      simp only [Bool.and_eq_true, beq_iff_eq] at h2
      exact hnone o (List.mem_range.mp ho.1) h2

/-- Witness for C8: on the example image the scan returns a present value; on
an all-zero image it returns `none`. -/
theorem c8_detect_rsdp_witness :
    (∃ off, detect_rsdp rsdpExampleMem = some off ∧ off % 16 = 0 ∧
        validRsdpAt rsdpExampleMem off = true) ∧
    detect_rsdp [0, 0, 0, 0] = none :=
  ⟨(c8_detect_rsdp rsdpExampleMem).1 ⟨0, by decide, by decide, by decide⟩,
   (c8_detect_rsdp [0, 0, 0, 0]).2 (by decide)⟩

end Bootloader
